import Mathlib

/-!
Shallow embedding of `src/pedigree_profiler.py` (classes `Individual` and
`Pedigree`).  Python objects are modelled by natural-number references into an
environment `Env : Nat → IndData`; object identity is reference equality.
Python code that can raise (attribute access on `None`) is modelled in
`Except Unit`.
-/

namespace PedigreeProfiler

/-- One `Individual` record: the fields set by `Individual.__init__`.
`mother`/`father` are optional references, `children` a reference list. -/
structure IndData where
  sex : String
  affected : Bool
  mother : Option Nat
  father : Option Nat
  children : List Nat

/-- The heap: every reference resolves to an individual record. -/
def Env : Type := Nat → IndData

/-- Python's `True`/`False`/`None` results of `Individual.is_carrier`. -/
inductive TriBool where
  | t
  | f
  | ind
deriving DecidableEq

/-- Mutation `self.father = parent` of `add_parent_child_relationship`. -/
def setFather (env : Env) (c p : Nat) : Env :=
  fun j => if j = c then { env j with father := some p } else env j

/-- Mutation `self.mother = parent` of `add_parent_child_relationship`. -/
def setMother (env : Env) (c p : Nat) : Env :=
  fun j => if j = c then { env j with mother := some p } else env j

/-- Mutation `parent.children.append(self)`. -/
def appendChild (env : Env) (p c : Nat) : Env :=
  fun j => if j = p then { env j with children := (env j).children ++ [c] } else env j

/-- `Individual.add_parent_child_relationship(self, parent, sex)`:
sets `self.father` (tag `"M"`) or `self.mother` (tag `"F"`) and appends
`self` to `parent.children`; any other tag falls through both branches. -/
def add_parent_child_relationship (env : Env) (c p : Nat) (sex : String) : Env :=
  if sex = "M" then appendChild (setFather env c p) p c
  else if sex = "F" then appendChild (setMother env c p) p c
  else env

/-- The generator `any(child.affected and not child.father.affected for child
in self.children)`: evaluated left to right with short-circuiting; accessing
`child.father.affected` on a missing father raises (modelled as `.error`). -/
def anyAffChildUnaffFather (env : Env) : List Nat → Except Unit Bool
  | [] => .ok false
  | c :: rest =>
    if (env c).affected then
      match (env c).father with
      | none => .error ()
      | some cf =>
        if (env cf).affected then anyAffChildUnaffFather env rest
        else .ok true
    else anyAffChildUnaffFather env rest

/-- The generator `any(child.affected and not child.mother.affected for child
in self.children)` of the symmetric male branch. -/
def anyAffChildUnaffMother (env : Env) : List Nat → Except Unit Bool
  | [] => .ok false
  | c :: rest =>
    if (env c).affected then
      match (env c).mother with
      | none => .error ()
      | some cm =>
        if (env cm).affected then anyAffChildUnaffMother env rest
        else .ok true
    else anyAffChildUnaffMother env rest

/-- `any(sibling.affected for sibling in self.mother.children +
self.father.children if sibling != self)`; `!=` is object identity. -/
def siblingAffected (env : Env) (i m f : Nat) : Bool :=
  ((env m).children ++ (env f).children).any fun s => decide (s ≠ i) && (env s).affected

/-- `Individual.is_carrier`, line by line: missing parent or empty children
list returns `None`; then the three heuristic checks in source order, each
guarded exactly as in the Python conjunctions (the `any` generators are only
evaluated when the preceding conjuncts hold). -/
def is_carrier (env : Env) (i : Nat) : Except Unit TriBool :=
  match (env i).mother, (env i).father with
  | some m, some f =>
    if (env i).children.isEmpty then .ok .ind
    else
      match (if (env i).sex = "F" ∧ (env i).affected = false then
               anyAffChildUnaffFather env (env i).children
             else .ok false) with
      | .error e => .error e
      | .ok true => .ok .t
      | .ok false =>
        match (if (env i).sex = "M" ∧ (env i).affected = false then
                 anyAffChildUnaffMother env (env i).children
               else .ok false) with
        | .error e => .error e
        | .ok true => .ok .t
        | .ok false =>
          if (env i).affected = false ∧ (env m).affected = false ∧
              (env f).affected = false ∧ siblingAffected env i m f = true then
            .ok .t
          else .ok .f
  | _, _ => .ok .ind

/-- The reachable states of the Python set `possible_modes`: a flag per mode,
`true` meaning the mode string is still in the set. -/
structure ModeSet where
  ad : Bool
  ar : Bool
  xd : Bool
  xr : Bool
deriving DecidableEq

/-- The initial candidate set of `find_mode_of_inheritance`. -/
def initialModes : ModeSet := ⟨true, true, true, true⟩

/-- `len(possible_modes)`. -/
def ModeSet.card (s : ModeSet) : Nat :=
  (if s.ad then 1 else 0) + (if s.ar then 1 else 0) +
    (if s.xd then 1 else 0) + (if s.xr then 1 else 0)

/-- `possible_modes.pop()` in the `len == 1` case: the unique remaining
mode's string. -/
def ModeSet.singleName (s : ModeSet) : String :=
  if s.ad then "Autosomal Dominant"
  else if s.ar then "Autosomal Recessive"
  else if s.xd then "X-Linked Dominant"
  else "X-Linked Recessive"

/-- The set of strings a `ModeSet` stands for. -/
def ModeSet.toStrings (s : ModeSet) : List String :=
  (if s.ad then ["Autosomal Dominant"] else []) ++
    (if s.ar then ["Autosomal Recessive"] else []) ++
    (if s.xd then ["X-Linked Dominant"] else []) ++
    (if s.xr then ["X-Linked Recessive"] else [])

/-- Pointwise set inclusion of candidate-mode sets. -/
def ModeSet.Sub (s t : ModeSet) : Prop :=
  (s.ad = true → t.ad = true) ∧ (s.ar = true → t.ar = true) ∧
    (s.xd = true → t.xd = true) ∧ (s.xr = true → t.xr = true)

instance (s t : ModeSet) : Decidable (s.Sub t) := by
  unfold ModeSet.Sub; infer_instance

/-- Return value of `find_mode_of_inheritance`: a lone string when one mode
remains, the whole set otherwise. -/
inductive ModeResult where
  | single (mode : String)
  | multiple (modes : ModeSet)
deriving DecidableEq

/-- `Pedigree.find_affected`: filter the collection by the `affected` flag. -/
def find_affected (env : Env) (inds : List Nat) : List Nat :=
  inds.filter fun i => (env i).affected

/-- `not parent.affected and not parent.is_carrier()` for one parent: the
carrier call is short-circuited away when the parent is affected, and `not`
of the result is truthy for both `False` and `None`. -/
def notCarrierSide (env : Env) (p : Nat) : Except Unit Bool :=
  if (env p).affected then .ok false
  else
    match is_carrier env p with
    | .error e => .error e
    | .ok c => .ok (decide (c ≠ TriBool.t))

/-- The Autosomal-Recessive discard condition, father disjunct first with
Python's `or` short-circuit. -/
def arCond (env : Env) (f m : Nat) : Except Unit Bool :=
  match notCarrierSide env f with
  | .error e => .error e
  | .ok true => .ok true
  | .ok false => notCarrierSide env m

/-- The X-Linked-Recessive discard condition
`individual.sex == "M" and not (mother.affected or mother.is_carrier())`. -/
def xrCond (env : Env) (i m : Nat) : Except Unit Bool :=
  if (env i).sex = "M" then
    if (env m).affected then .ok false
    else
      match is_carrier env m with
      | .error e => .error e
      | .ok c => .ok (decide (c ≠ TriBool.t))
  else .ok false

/-- The body of the `for individual in self.find_affected()` loop for one
individual: nothing happens unless both parents are recorded; then the three
discard blocks run in source order, errors aborting the whole call. -/
def stepInd (env : Env) (s : ModeSet) (i : Nat) : Except Unit ModeSet :=
  match (env i).father, (env i).mother with
  | some f, some m =>
    let s1 := if (env f).affected = false ∧ (env m).affected = false then
        { s with ad := false, xd := false }
      else s
    match arCond env f m with
    | .error e => .error e
    | .ok c2 =>
      let s2 := if c2 then { s1 with ar := false } else s1
      match xrCond env i m with
      | .error e => .error e
      | .ok c3 => .ok (if c3 then { s2 with xr := false } else s2)
  | _, _ => .ok s

/-- The elimination loop over the (already filtered) affected list. -/
def eliminate (env : Env) (s : ModeSet) : List Nat → Except Unit ModeSet
  | [] => .ok s
  | i :: rest =>
    match stepInd env s i with
    | .error e => .error e
    | .ok s2 => eliminate env s2 rest

/-- `Pedigree.find_mode_of_inheritance`: run the elimination from the full
four-mode set over `find_affected`, then return the lone survivor via
`pop()` when exactly one remains, the set otherwise. -/
def find_mode_of_inheritance (env : Env) (inds : List Nat) : Except Unit ModeResult :=
  match eliminate env initialModes (find_affected env inds) with
  | .error e => .error e
  | .ok s => .ok (if s.card = 1 then .single s.singleName else .multiple s)

/-! ### Concrete pedigrees from the example section of the source -/

/-- Constructor call `Individual(id, sex, affected)` with default parent and
children arguments. -/
def IndData.base (sex : String) (affected : Bool) : IndData :=
  ⟨sex, affected, none, none, []⟩

/-- Run a list of `add_parent_child_relationship` calls
(child, parent, tag) left to right. -/
def buildEnv (base : Env) (calls : List (Nat × Nat × String)) : Env :=
  calls.foldl (fun e t => add_parent_child_relationship e t.1 t.2.1 t.2.2) base

/-- The twelve constructor calls of Test Pedigree 9 (reference `n` is `In`). -/
def base9 : Env := fun n =>
  match n with
  | 1 => .base "M" false
  | 2 => .base "F" false
  | 3 => .base "F" false
  | 4 => .base "M" false
  | 5 => .base "F" true
  | 6 => .base "M" false
  | 7 => .base "F" false
  | 8 => .base "M" true
  | 9 => .base "F" false
  | 10 => .base "M" false
  | 11 => .base "F" true
  | 12 => .base "M" false
  | _ => .base "M" false

/-- The fifteen relationship calls of Test Pedigree 9, in source order. -/
def calls9 : List (Nat × Nat × String) :=
  [(3, 1, "M"), (3, 2, "F"), (4, 1, "M"), (4, 2, "F"),
   (5, 3, "F"), (5, 4, "M"), (6, 3, "F"), (6, 4, "M"),
   (7, 3, "F"), (7, 4, "M"), (8, 5, "F"), (9, 5, "F"),
   (10, 5, "F"), (11, 6, "M"), (12, 7, "F")]

/-- The heap after building Test Pedigree 9. -/
def env9 : Env := buildEnv base9 calls9

/-- The collection `individuals_9` handed to `Pedigree`. -/
def inds9 : List Nat := [1, 2, 3, 4, 5, 6, 7, 8, 9, 10, 11, 12]

/-- A pedigree on which `is_carrier` hits the unguarded attribute access:
individual 1 is an unaffected female with parents 3 and 4 and children 0
and 5; child 0 is affected with an affected father 2, child 5 is affected
with no recorded father, so the first `any` generator evaluates
`child.father.affected` on `None`. -/
def envErr : Env := fun n =>
  match n with
  | 0 => ⟨"F", true, some 1, some 2, []⟩
  | 1 => ⟨"F", false, some 3, some 4, [0, 5]⟩
  | 2 => ⟨"M", true, none, none, [0]⟩
  | 3 => ⟨"F", false, none, none, [1]⟩
  | 4 => ⟨"M", false, none, none, [1]⟩
  | 5 => ⟨"M", true, some 1, none, []⟩
  | _ => ⟨"M", false, none, none, []⟩

/-- The collection for `envErr`. -/
def indsErr : List Nat := [0, 1, 2, 3, 4, 5]

/-- A pedigree with an individual (0) that has exactly one recorded parent
and a non-empty children list, and an affected founder (2). -/
def env8 : Env := fun n =>
  match n with
  | 0 => ⟨"F", false, some 1, none, [2]⟩
  | 1 => ⟨"F", false, none, none, [0]⟩
  | 2 => ⟨"M", true, none, none, []⟩
  | _ => ⟨"M", false, none, none, []⟩

/-- An affected male (1) whose parents are unaffected founders: all four
modes get eliminated. -/
def envEmpty : Env := fun n =>
  match n with
  | 1 => ⟨"M", true, some 2, some 3, []⟩
  | 2 => ⟨"F", false, none, none, [1]⟩
  | 3 => ⟨"M", false, none, none, [1]⟩
  | _ => ⟨"M", false, none, none, []⟩

/-- A heap of fresh, unlinked individuals. -/
def envW : Env := fun _ => ⟨"M", false, none, none, []⟩

/-! ### Definitions following the words of the specification claims -/

/-- `true` when the `Except` computation did not raise. -/
def isOkE {α : Type} : Except Unit α → Bool
  | .ok _ => true
  | .error _ => false

/-- The claim's "carrier status is not True": holds for a `False` or
`Indeterminate` status. -/
def notTrueB : Except Unit TriBool → Bool
  | .ok TriBool.t => false
  | _ => true

/-- Every affected member of the collection with both parents recorded has
parents whose `is_carrier` evaluation does not raise. -/
def goodCalls (env : Env) (inds : List Nat) : Bool :=
  inds.all fun i =>
    !(env i).affected ||
      (match (env i).mother, (env i).father with
       | some m, some f => isOkE (is_carrier env m) && isOkE (is_carrier env f)
       | _, _ => true)

/-- The three discards of claim C1, stated from the claim's words: (1) if
neither parent is affected, drop Autosomal Dominant and X-Linked Dominant;
(2) if an unaffected parent's carrier status is not True, drop Autosomal
Recessive; (3) if the individual is male and the mother is neither affected
nor a carrier, drop X-Linked Recessive.  Individuals missing a parent
contribute nothing. -/
def claimStep (env : Env) (s : ModeSet) (i : Nat) : ModeSet :=
  match (env i).mother, (env i).father with
  | some m, some f =>
    let s1 := if (env f).affected = false ∧ (env m).affected = false then
        { s with ad := false, xd := false }
      else s
    let s2 := if ((env f).affected = false ∧ notTrueB (is_carrier env f) = true) ∨
        ((env m).affected = false ∧ notTrueB (is_carrier env m) = true) then
        { s1 with ar := false }
      else s1
    if (env i).sex = "M" ∧ (env m).affected = false ∧
        notTrueB (is_carrier env m) = true then
      { s2 with xr := false }
    else s2
  | _, _ => s

/-- Claim C1's description of the whole computation: fold the three discards
over every affected individual of the collection, starting from the full
candidate set. -/
def claimModeSet (env : Env) (inds : List Nat) : ModeSet :=
  (inds.filter fun i => (env i).affected).foldl (claimStep env) initialModes

/-- "a child whose father (resp. mother) is unaffected", for an optional
parent reference: false when the parent is unrecorded. -/
def parentUnaff (env : Env) (o : Option Nat) : Bool :=
  match o with
  | some p => !(env p).affected
  | none => false

/-- The three heuristic conditions of claim C3, stated from the claim's
words. -/
def claimCarrierCond (env : Env) (i : Nat) : Bool :=
  (decide ((env i).sex = "F") && !(env i).affected &&
      ((env i).children.any fun c => (env c).affected && parentUnaff env (env c).father)) ||
    (decide ((env i).sex = "M") && !(env i).affected &&
      ((env i).children.any fun c => (env c).affected && parentUnaff env (env c).mother)) ||
    (!(env i).affected &&
      (match (env i).mother, (env i).father with
       | some m, some f =>
         !(env m).affected && !(env f).affected && siblingAffected env i m f
       | _, _ => false))

/-- Every affected child of `i` has both parents recorded, so the `any`
generators inside `is_carrier env i` cannot raise. -/
def childrenSafe (env : Env) (i : Nat) : Bool :=
  (env i).children.all fun c =>
    !(env c).affected || ((env c).father.isSome && (env c).mother.isSome)

/-- The individual is affected and has both parents recorded — the only
individuals that can contribute discards. -/
def affBP (env : Env) (i : Nat) : Bool :=
  (env i).affected && (env i).mother.isSome && (env i).father.isSome

/-- `SubPed env l' l`: `l'` is obtained from the collection `l` by omitting
some affected individuals that have both parents recorded (claim C6's
notion of sub-pedigree; the underlying heap is unchanged). -/
inductive SubPed (env : Env) : List Nat → List Nat → Prop where
  | nil : SubPed env [] []
  | keep (i : Nat) (l1 l2 : List Nat) : SubPed env l1 l2 → SubPed env (i :: l1) (i :: l2)
  | drop (i : Nat) (l1 l2 : List Nat) : affBP env i = true → SubPed env l1 l2 →
      SubPed env l1 (i :: l2)

/-- Claim C7's invariant: anyone recorded as a parent lists the child among
its children. -/
def ParentChildInv (env : Env) : Prop :=
  ∀ i p : Nat,
    ((env i).mother = some p → i ∈ (env p).children) ∧
    ((env i).father = some p → i ∈ (env p).children)

/-- Heaps reachable from a state with no recorded parents (fresh
`Individual(...)` constructions) by `add_parent_child_relationship` calls —
the lifecycle the specification describes. -/
inductive Built : Env → Prop where
  | base (env : Env) : (∀ i, (env i).mother = none ∧ (env i).father = none) → Built env
  | step (env : Env) (c p : Nat) (s : String) : Built env →
      Built (add_parent_child_relationship env c p s)

/-! ### Lemmas -/

lemma isOkE_ex {α : Type} {e : Except Unit α} (h : isOkE e = true) : ∃ x, e = .ok x := by
  cases e with
  | ok x => exact ⟨x, rfl⟩
  | error e => simp [isOkE] at h

lemma stepInd_noparent (env : Env) (s : ModeSet) (i : Nat)
    (h : (env i).mother = none ∨ (env i).father = none) :
    stepInd env s i = .ok s := by
  unfold stepInd
  rcases hf : (env i).father with _ | f
  · rfl
  · rcases hm : (env i).mother with _ | m
    · rfl
    · rcases h with h | h
      · rw [hm] at h; cases h
      · rw [hf] at h; cases h

lemma claimStep_noparent (env : Env) (s : ModeSet) (i : Nat)
    (h : (env i).mother = none ∨ (env i).father = none) :
    claimStep env s i = s := by
  unfold claimStep
  rcases hf : (env i).father with _ | f
  · rcases hm : (env i).mother with _ | m
    · rfl
    · rfl
  · rcases hm : (env i).mother with _ | m
    · rfl
    · rcases h with h | h
      · rw [hm] at h; cases h
      · rw [hf] at h; cases h

lemma eliminate_skip (env : Env) (inds : List Nat)
    (h : ∀ i ∈ inds, (env i).affected = true →
      (env i).mother = none ∨ (env i).father = none) :
    ∀ s, eliminate env s (find_affected env inds) = .ok s := by
  induction inds with
  | nil => intro s; rfl
  | cons i rest ih =>
    intro s
    have hrest : ∀ j ∈ rest, (env j).affected = true →
        (env j).mother = none ∨ (env j).father = none :=
      fun j hj => h j (List.mem_cons_of_mem _ hj)
    show eliminate env s ((i :: rest).filter fun j => (env j).affected) = .ok s
    cases haff : (env i).affected with
    | false =>
      rw [List.filter_cons_of_neg (by simp [haff])]
      exact ih hrest s
    | true =>
      rw [List.filter_cons_of_pos (by simp [haff])]
      have hstep := stepInd_noparent env s i (h i (List.mem_cons_self i rest) haff)
      show (match stepInd env s i with
        | Except.error e => Except.error e
        | Except.ok s2 => eliminate env s2 (rest.filter fun j => (env j).affected)) = Except.ok s
      rw [hstep]
      exact ih hrest s

lemma stepInd_eq_claimStep (env : Env) (s : ModeSet) (i m f : Nat)
    (hm : (env i).mother = some m) (hf : (env i).father = some f)
    (hcm : isOkE (is_carrier env m) = true) (hcf : isOkE (is_carrier env f) = true) :
    stepInd env s i = .ok (claimStep env s i) := by
  obtain ⟨cm, hm2⟩ := isOkE_ex hcm
  obtain ⟨cf, hf2⟩ := isOkE_ex hcf
  unfold stepInd claimStep arCond xrCond notCarrierSide notTrueB
  rw [hm, hf]
  dsimp only
  rw [hm2, hf2]
  cases cf <;> cases cm <;>
    cases hfa : (env f).affected <;> cases hma : (env m).affected <;>
    by_cases hsx : (env i).sex = "M" <;>
    simp_all

lemma eliminate_eq_claimFold (env : Env) (inds : List Nat)
    (h : goodCalls env inds = true) :
    ∀ s, eliminate env s (find_affected env inds)
      = .ok ((inds.filter fun i => (env i).affected).foldl (claimStep env) s) := by
  induction inds with
  | nil => intro s; rfl
  | cons i rest ih =>
    rw [goodCalls, List.all_cons, Bool.and_eq_true] at h
    obtain ⟨hi, hrest⟩ := h
    intro s
    show eliminate env s ((i :: rest).filter fun j => (env j).affected)
      = .ok (((i :: rest).filter fun j => (env j).affected).foldl (claimStep env) s)
    cases haff : (env i).affected with
    | false =>
      rw [List.filter_cons_of_neg (by simp [haff])]
      exact ih hrest s
    | true =>
      rw [List.filter_cons_of_pos (by simp [haff])]
      have hstep : stepInd env s i = .ok (claimStep env s i) := by
        rw [haff] at hi
        rcases hmo : (env i).mother with _ | m
        · rw [stepInd_noparent env s i (Or.inl hmo), claimStep_noparent env s i (Or.inl hmo)]
        · rcases hfa : (env i).father with _ | f
          · rw [stepInd_noparent env s i (Or.inr hfa), claimStep_noparent env s i (Or.inr hfa)]
          · rw [hmo, hfa] at hi
            simp only [Bool.not_true, Bool.false_or, Bool.and_eq_true] at hi
            exact stepInd_eq_claimStep env s i m f hmo hfa hi.1 hi.2
      show (match stepInd env s i with
        | Except.error e => Except.error e
        | Except.ok s2 => eliminate env s2 (rest.filter fun j => (env j).affected))
        = Except.ok ((i :: rest.filter fun j => (env j).affected).foldl (claimStep env) s)
      rw [hstep, List.foldl_cons]
      exact ih hrest (claimStep env s i)

lemma childrenSafe_all {env : Env} {i : Nat} (hs : childrenSafe env i = true) :
    ∀ c ∈ (env i).children, (env c).affected = true →
      (env c).father.isSome = true ∧ (env c).mother.isSome = true := by
  intro c hc ha
  rw [childrenSafe, List.all_eq_true] at hs
  have h2 := hs c hc
  rw [ha] at h2
  simpa using h2

lemma anyAffF_ok (env : Env) (l : List Nat)
    (h : ∀ c ∈ l, (env c).affected = true → (env c).father.isSome = true) :
    anyAffChildUnaffFather env l
      = .ok (l.any fun c => (env c).affected && parentUnaff env (env c).father) := by
  induction l with
  | nil => rfl
  | cons c rest ih =>
    have hrest := fun x hx => h x (List.mem_cons_of_mem _ hx)
    rw [anyAffChildUnaffFather, List.any_cons]
    cases haff : (env c).affected with
    | false => simp [haff, ih hrest]
    | true =>
      have hsome := h c (List.mem_cons_self c rest) haff
      rcases hcf : (env c).father with _ | cf
      · rw [hcf] at hsome; cases hsome
      · cases hfa : (env cf).affected with
        | true => simp [parentUnaff, hfa, ih hrest]
        | false => simp [parentUnaff, hfa]

lemma anyAffM_ok (env : Env) (l : List Nat)
    (h : ∀ c ∈ l, (env c).affected = true → (env c).mother.isSome = true) :
    anyAffChildUnaffMother env l
      = .ok (l.any fun c => (env c).affected && parentUnaff env (env c).mother) := by
  induction l with
  | nil => rfl
  | cons c rest ih =>
    have hrest := fun x hx => h x (List.mem_cons_of_mem _ hx)
    rw [anyAffChildUnaffMother, List.any_cons]
    cases haff : (env c).affected with
    | false => simp [haff, ih hrest]
    | true =>
      have hsome := h c (List.mem_cons_self c rest) haff
      rcases hcm : (env c).mother with _ | cm
      · rw [hcm] at hsome; cases hsome
      · cases hma : (env cm).affected with
        | true => simp [parentUnaff, hma, ih hrest]
        | false => simp [parentUnaff, hma]

lemma is_carrier_char (env : Env) (i m f : Nat)
    (hm : (env i).mother = some m) (hf : (env i).father = some f)
    (hc : (env i).children ≠ []) (hs : childrenSafe env i = true) :
    is_carrier env i = .ok (if claimCarrierCond env i then TriBool.t else TriBool.f) := by
  have hsafe := childrenSafe_all hs
  have hF := anyAffF_ok env (env i).children (fun c hcm ha => (hsafe c hcm ha).1)
  have hM := anyAffM_ok env (env i).children (fun c hcm ha => (hsafe c hcm ha).2)
  have hie : (env i).children.isEmpty = false := by
    rcases hx : (env i).children with _ | ⟨a, b⟩
    · exact absurd hx hc
    · rfl
  unfold is_carrier claimCarrierCond
  rw [hm, hf]
  dsimp only
  have hni : ¬((env i).children.isEmpty = true) := by rw [hie]; simp
  rw [if_neg hni]
  by_cases h1 : (env i).sex = "F" ∧ (env i).affected = false
  · rw [if_pos h1, hF]
    cases hany1 : ((env i).children.any fun c =>
        (env c).affected && parentUnaff env (env c).father) with
    | true => simp [h1.1, h1.2, hany1]
    | false =>
      have hsx : ¬((env i).sex = "M" ∧ (env i).affected = false) := by
        rintro ⟨h2, -⟩
        rw [h1.1] at h2
        exact absurd h2 (by decide)
      rw [if_neg hsx]
      dsimp only
      by_cases h3 : (env i).affected = false ∧ (env m).affected = false ∧
          (env f).affected = false ∧ siblingAffected env i m f = true
      · rw [if_pos h3]
        simp [hany1, h1.1, h1.2, h3.1, h3.2.1, h3.2.2.1, h3.2.2.2]
      · rw [if_neg h3]
        have hnm : ¬((env i).sex = "M") := by rw [h1.1]; decide
        simp only [hany1, h1.1, h1.2, hnm]
        simp_all
        rw [if_neg (by rintro ⟨⟨ha, hb⟩, hcx⟩; rw [h3 ha hb] at hcx; cases hcx)]
  · rw [if_neg h1]
    dsimp only
    by_cases h2 : (env i).sex = "M" ∧ (env i).affected = false
    · rw [if_pos h2, hM]
      cases hany2 : ((env i).children.any fun c =>
          (env c).affected && parentUnaff env (env c).mother) with
      | true =>
        have hnf : ¬((env i).sex = "F") := by rw [h2.1]; decide
        simp [h2.1, h2.2, hany2, hnf]
      | false =>
        have hnf : ¬((env i).sex = "F") := by rw [h2.1]; decide
        by_cases h3 : (env i).affected = false ∧ (env m).affected = false ∧
            (env f).affected = false ∧ siblingAffected env i m f = true
        · rw [if_pos h3]
          simp [hany2, h2.1, h2.2, h3.2.1, h3.2.2.1, h3.2.2.2, hnf]
        · rw [if_neg h3]
          simp only [hany2, h2.1, h2.2, hnf]
          simp_all
          rw [if_neg (by rintro ⟨⟨ha, hb⟩, hcx⟩; rw [h3 ha hb] at hcx; cases hcx)]
    · rw [if_neg h2]
      dsimp only
      by_cases h3 : (env i).affected = false ∧ (env m).affected = false ∧
          (env f).affected = false ∧ siblingAffected env i m f = true
      · rw [if_pos h3]
        have hnf : ¬((env i).sex = "F") := by
          intro hx
          exact h1 ⟨hx, h3.1⟩
        have hnm2 : ¬((env i).sex = "M") := by
          intro hx
          exact h2 ⟨hx, h3.1⟩
        simp [h3.1, h3.2.1, h3.2.2.1, h3.2.2.2, hnf, hnm2]
      · rw [if_neg h3]
        by_cases haff : (env i).affected = false
        · have hnf : ¬((env i).sex = "F") := fun hx => h1 ⟨hx, haff⟩
          have hnm2 : ¬((env i).sex = "M") := fun hx => h2 ⟨hx, haff⟩
          simp only [haff, hnf, hnm2]
          simp_all
          rw [if_neg (by rintro ⟨⟨ha, hb⟩, hcx⟩; rw [h3 ha hb] at hcx; cases hcx)]
        · have haff2 : (env i).affected = true := by
            cases hb : (env i).affected
            · exact absurd hb haff
            · rfl
          simp [haff2]

/-! ### Theorems for the claims -/

/-- C1: starting from the four-mode candidate set, the elimination loop of
`find_mode_of_inheritance` applies, for every affected individual with both
parents recorded, exactly the three discards described by the claim
(`claimStep`), and affected individuals missing a parent contribute none —
provided the carrier evaluations consulted for the parents do not raise. -/
theorem C1_elimination_matches_claimed_discards (env : Env) (inds : List Nat)
    (h : goodCalls env inds = true) :
    eliminate env initialModes (find_affected env inds) = .ok (claimModeSet env inds) :=
  eliminate_eq_claimFold env inds h initialModes

/-- Witness for C1 on the Scenario A pedigree. -/
theorem C1_witness : goodCalls env9 inds9 = true ∧
    eliminate env9 initialModes (find_affected env9 inds9) = .ok (claimModeSet env9 inds9) :=
  ⟨rfl, C1_elimination_matches_claimed_discards env9 inds9 rfl⟩

/-- Counterexample to C5: `find_mode_of_inheritance` can fail.  On `envErr`,
processing affected individual 0 evaluates the mother's `is_carrier`, which
raises on an affected child with no recorded father, and the exception
propagates out of `find_mode_of_inheritance`. -/
theorem C5_counterexample : find_mode_of_inheritance envErr indsErr = .error () := rfl

/-- C5 amended: when none of the consulted carrier evaluations raises,
`find_mode_of_inheritance` returns normally, and any returned set (as
opposed to a lone string) never has exactly one element; zero remaining
modes is a possible, normal outcome. -/
theorem C5_amended_no_failure (env : Env) (inds : List Nat)
    (h : goodCalls env inds = true) :
    isOkE (find_mode_of_inheritance env inds) = true ∧
      ∀ s, find_mode_of_inheritance env inds = .ok (.multiple s) → s.card ≠ 1 := by
  have he := eliminate_eq_claimFold env inds h initialModes
  constructor
  · unfold find_mode_of_inheritance
    rw [he]
    rfl
  · intro s hs
    unfold find_mode_of_inheritance at hs
    rw [he] at hs
    dsimp only at hs
    by_cases hc : ((inds.filter fun i => (env i).affected).foldl (claimStep env)
        initialModes).card = 1
    · rw [if_pos hc] at hs
      injection hs with h1
      cases h1
    · rw [if_neg hc] at hs
      injection hs with h1
      injection h1 with h2
      rw [← h2]
      exact hc

/-- Witness for C5 on a pedigree that eliminates all four modes: the result
is a normal return of the empty set. -/
theorem C5_witness : goodCalls envEmpty [1, 2, 3] = true ∧
    isOkE (find_mode_of_inheritance envEmpty [1, 2, 3]) = true :=
  ⟨rfl, (C5_amended_no_failure envEmpty [1, 2, 3] rfl).1⟩

/-- Counterexample to C3: individual 1 of `envErr` has both parents recorded
and a non-empty children list, and none of the claim's three conditions
holds, so the claim asserts `is_carrier` returns False — but the code raises
instead (an affected child with no recorded father is reached by the first
`any` generator). -/
theorem C3_counterexample :
    is_carrier envErr 1 = .error () ∧ claimCarrierCond envErr 1 = false := ⟨rfl, rfl⟩

/-- C3 amended: for an individual with both parents recorded and a non-empty
children list, *whose affected children all have both parents recorded* (so
no attribute access raises), `is_carrier` returns True exactly when one of
the claim's three conditions holds and False otherwise. -/
theorem C3_amended_carrier_iff_conditions (env : Env) (i m f : Nat)
    (hm : (env i).mother = some m) (hf : (env i).father = some f)
    (hc : (env i).children ≠ []) (hs : childrenSafe env i = true) :
    is_carrier env i = .ok (if claimCarrierCond env i then TriBool.t else TriBool.f) :=
  is_carrier_char env i m f hm hf hc hs

/-- Witness for C3 at individual 3 (I3) of the Scenario A pedigree. -/
theorem C3_witness : childrenSafe env9 3 = true ∧
    is_carrier env9 3 = .ok (if claimCarrierCond env9 3 then TriBool.t else TriBool.f) :=
  ⟨rfl, C3_amended_carrier_iff_conditions env9 3 2 1 rfl rfl (by decide) rfl⟩

/-- Counterexample to C4: `is_carrier` can raise.  Individual 1 of `envErr`
is an unaffected female with both parents and two children; its affected
child 5 has no recorded father, and the first heuristic check evaluates
`child.father.affected` on `None`. -/
theorem C4_counterexample : is_carrier envErr 1 = .error () := rfl

/-- C4 amended: `is_carrier` terminates with a sentinel (True, False or
Indeterminate) whenever every affected child of the individual has both
parents recorded; in particular missing parents or children of the
individual itself yield Indeterminate, not an error. -/
theorem C4_amended_no_exception (env : Env) (i : Nat)
    (hs : childrenSafe env i = true) :
    isOkE (is_carrier env i) = true := by
  rcases hmo : (env i).mother with _ | m
  · unfold is_carrier
    rw [hmo]
    rfl
  · rcases hfa : (env i).father with _ | fx
    · unfold is_carrier
      rw [hmo, hfa]
      rfl
    · rcases hch : (env i).children with _ | ⟨c0, cs⟩
      · unfold is_carrier
        rw [hmo, hfa]
        dsimp only
        rw [hch]
        rfl
      · rw [is_carrier_char env i m fx hmo hfa (by rw [hch]; simp) hs]
        rfl

/-- Witness for C4 at individual 4 (I4) of the Scenario A pedigree. -/
theorem C4_witness : childrenSafe env9 4 = true ∧ isOkE (is_carrier env9 4) = true :=
  ⟨rfl, C4_amended_no_exception env9 4 rfl⟩

/-- Counterexample to C8: individual 0 of `env8` has a recorded mother (so
not "no recorded parents") and a non-empty children list, yet `is_carrier`
returns Indeterminate because its father is unrecorded — the claim asserts
it would return True or False. -/
theorem C8_counterexample : is_carrier env8 0 = .ok TriBool.ind ∧
    (env8 0).mother = some 1 ∧ (env8 0).children = [2] := ⟨rfl, rfl, rfl⟩

/-- C8 amended: `is_carrier` returns Indeterminate exactly when the
individual is missing its mother, missing its father, or has no children;
in every other case (given that its affected children have both parents
recorded, so no exception occurs) it returns True or False. -/
theorem C8_amended_indeterminate_iff (env : Env) (i : Nat)
    (hs : childrenSafe env i = true) :
    (is_carrier env i = .ok TriBool.ind ↔
      ((env i).mother = none ∨ (env i).father = none ∨ (env i).children = [])) ∧
    (¬((env i).mother = none ∨ (env i).father = none ∨ (env i).children = []) →
      is_carrier env i = .ok TriBool.t ∨ is_carrier env i = .ok TriBool.f) := by
  rcases hmo : (env i).mother with _ | m
  · refine ⟨⟨fun _ => Or.inl rfl, fun _ => ?_⟩, fun hcon => absurd (Or.inl rfl) hcon⟩
    unfold is_carrier
    rw [hmo]
  · rcases hfa : (env i).father with _ | fx
    · refine ⟨⟨fun _ => Or.inr (Or.inl rfl), fun _ => ?_⟩,
        fun hcon => absurd (Or.inr (Or.inl rfl)) hcon⟩
      unfold is_carrier
      rw [hmo, hfa]
    · rcases hch : (env i).children with _ | ⟨c0, cs⟩
      · refine ⟨⟨fun _ => Or.inr (Or.inr rfl), fun _ => ?_⟩,
          fun hcon => absurd (Or.inr (Or.inr rfl)) hcon⟩
        unfold is_carrier
        rw [hmo, hfa]
        dsimp only
        rw [hch]
        rfl
      · have hchar := is_carrier_char env i m fx hmo hfa (by rw [hch]; simp) hs
        constructor
        · constructor
          · intro hind
            rw [hchar] at hind
            by_cases hb : claimCarrierCond env i = true
            · rw [if_pos hb] at hind
              injection hind with h1
              cases h1
            · rw [if_neg hb] at hind
              injection hind with h1
              cases h1
          · rintro (h | h | h)
            · cases h
            · cases h
            · cases h
        · intro _
          rw [hchar]
          by_cases hb : claimCarrierCond env i = true
          · left; rw [if_pos hb]
          · right; rw [if_neg hb]

/-- Witness for C8 at individual 7 (I7) of the Scenario A pedigree. -/
theorem C8_witness : is_carrier env9 7 = .ok TriBool.t ∨ is_carrier env9 7 = .ok TriBool.f :=
  (C8_amended_indeterminate_iff env9 7 rfl).2 (by decide)

lemma sub_refl_mode (s : ModeSet) : s.Sub s :=
  ⟨fun h => h, fun h => h, fun h => h, fun h => h⟩

lemma sub_trans_mode {a b c : ModeSet} (h1 : a.Sub b) (h2 : b.Sub c) : a.Sub c :=
  ⟨fun h => h2.1 (h1.1 h), fun h => h2.2.1 (h1.2.1 h),
    fun h => h2.2.2.1 (h1.2.2.1 h), fun h => h2.2.2.2 (h1.2.2.2 h)⟩

lemma toStrings_subset_initial (s : ModeSet) : s.toStrings ⊆ initialModes.toStrings := by
  rcases s with ⟨a, b, c, d⟩
  intro x hx
  cases a <;> cases b <;> cases c <;> cases d <;>
    simp_all [ModeSet.toStrings, initialModes] <;> tauto

lemma stepInd_shrinks {env : Env} {s t : ModeSet} {i : Nat}
    (h : stepInd env s i = .ok t) : t.Sub s := by
  unfold stepInd at h
  rcases hfa : (env i).father with _ | f
  · rw [hfa] at h
    dsimp only at h
    injection h with h1
    subst h1
    exact sub_refl_mode _
  · rcases hmo : (env i).mother with _ | m
    · rw [hfa, hmo] at h
      dsimp only at h
      injection h with h1
      subst h1
      exact sub_refl_mode _
    · rw [hfa, hmo] at h
      dsimp only at h
      rcases har : arCond env f m with e | c2
      · rw [har] at h
        dsimp only at h
        cases h
      · rw [har] at h
        dsimp only at h
        rcases hxr : xrCond env i m with e | c3
        · rw [hxr] at h
          dsimp only at h
          cases h
        · rw [hxr] at h
          dsimp only at h
          injection h with h1
          subst h1
          split_ifs <;> exact ⟨by simp_all, by simp_all, by simp_all, by simp_all⟩

lemma stepInd_mono {env : Env} {s s' t : ModeSet} {i : Nat}
    (hsub : s.Sub s') (h : stepInd env s i = .ok t) :
    ∃ t', stepInd env s' i = .ok t' ∧ t.Sub t' := by
  unfold stepInd at h ⊢
  rcases hfa : (env i).father with _ | f
  · rw [hfa] at h
    dsimp only at h ⊢
    injection h with h1
    subst h1
    exact ⟨s', rfl, hsub⟩
  · rcases hmo : (env i).mother with _ | m
    · rw [hfa, hmo] at h
      dsimp only at h ⊢
      injection h with h1
      subst h1
      exact ⟨s', rfl, hsub⟩
    · rw [hfa, hmo] at h
      dsimp only at h ⊢
      rcases har : arCond env f m with e | c2
      · rw [har] at h
        dsimp only at h
        cases h
      · rw [har] at h
        dsimp only at h ⊢
        rcases hxr : xrCond env i m with e | c3
        · rw [hxr] at h
          dsimp only at h
          cases h
        · rw [hxr] at h
          dsimp only at h ⊢
          injection h with h1
          subst h1
          refine ⟨_, rfl, ?_⟩
          obtain ⟨h1, h2, h3, h4⟩ := hsub
          split_ifs <;> exact ⟨by simp_all, by simp_all, by simp_all, by simp_all⟩

lemma elim_mono {env : Env} {l' l : List Nat} (hsp : SubPed env l' l) :
    ∀ s s' t, s.Sub s' → eliminate env s (find_affected env l) = .ok t →
      ∃ t', eliminate env s' (find_affected env l') = .ok t' ∧ t.Sub t' := by
  induction hsp with
  | nil =>
    intro s s' t hsub h
    injection h with h1
    subst h1
    exact ⟨s', rfl, hsub⟩
  | keep i l1 l2 hsp' ih =>
    intro s s' t hsub h
    cases haff : (env i).affected with
    | false =>
      rw [show find_affected env (i :: l2) = find_affected env l2 from by
        simp [find_affected, List.filter_cons, haff]] at h
      rw [show find_affected env (i :: l1) = find_affected env l1 from by
        simp [find_affected, List.filter_cons, haff]]
      exact ih s s' t hsub h
    | true =>
      rw [show find_affected env (i :: l2) = i :: find_affected env l2 from by
        simp [find_affected, List.filter_cons, haff]] at h
      rw [show find_affected env (i :: l1) = i :: find_affected env l1 from by
        simp [find_affected, List.filter_cons, haff]]
      rcases hstep : stepInd env s i with e | s1
      · rw [eliminate, hstep] at h
        cases h
      · rw [eliminate, hstep] at h
        obtain ⟨s1', hstep', hsub1⟩ := stepInd_mono hsub hstep
        obtain ⟨t', ht', hsubt⟩ := ih s1 s1' t hsub1 h
        refine ⟨t', ?_, hsubt⟩
        rw [eliminate, hstep']
        exact ht'
  | drop i l1 l2 haffbp hsp' ih =>
    intro s s' t hsub h
    have haff : (env i).affected = true := by
      unfold affBP at haffbp
      rw [Bool.and_eq_true, Bool.and_eq_true] at haffbp
      exact haffbp.1.1
    rw [show find_affected env (i :: l2) = i :: find_affected env l2 from by
      simp [find_affected, List.filter_cons, haff]] at h
    rcases hstep : stepInd env s i with e | s1
    · rw [eliminate, hstep] at h
      cases h
    · rw [eliminate, hstep] at h
      exact ih s1 s' t (sub_trans_mode (stepInd_shrinks hstep) hsub) h

/-- C6: the candidate-mode set computed by the elimination loop is always a
subset of the initial four-mode set, and omitting from the collection some
affected individuals with both parents recorded can only enlarge the
resulting set. -/
theorem C6_elimination_monotone (env : Env) (inds inds' : List Nat) (s s' : ModeSet)
    (hsp : SubPed env inds' inds)
    (hfull : eliminate env initialModes (find_affected env inds) = .ok s)
    (hsub : eliminate env initialModes (find_affected env inds') = .ok s') :
    s.Sub s' ∧ s.toStrings ⊆ initialModes.toStrings := by
  obtain ⟨t', ht', hsubt⟩ := elim_mono hsp initialModes initialModes s
    (sub_refl_mode initialModes) hfull
  rw [hsub] at ht'
  injection ht' with h1
  subst h1
  exact ⟨hsubt, toStrings_subset_initial s⟩

/-- Witness for C6: dropping I5 (the only affected individual with both
parents recorded) from the Scenario A pedigree turns the result {AR, XR}
into the full four-mode set, a superset. -/
theorem C6_witness :
    ModeSet.Sub ⟨false, true, false, true⟩ initialModes ∧
      ModeSet.toStrings ⟨false, true, false, true⟩ ⊆ initialModes.toStrings :=
  C6_elimination_monotone env9 inds9 [1, 2, 3, 4, 6, 7, 8, 9, 10, 11, 12]
    ⟨false, true, false, true⟩ initialModes
    (SubPed.keep 1 _ _ (SubPed.keep 2 _ _ (SubPed.keep 3 _ _ (SubPed.keep 4 _ _
      (SubPed.drop 5 _ _ (by decide) (SubPed.keep 6 _ _ (SubPed.keep 7 _ _
        (SubPed.keep 8 _ _ (SubPed.keep 9 _ _ (SubPed.keep 10 _ _ (SubPed.keep 11 _ _
          (SubPed.keep 12 _ _ SubPed.nil))))))))))))
    rfl rfl

lemma addM_mother (env : Env) (c p j : Nat) :
    ((appendChild (setFather env c p) p c) j).mother = (env j).mother := by
  unfold appendChild setFather
  by_cases h1 : j = p <;> by_cases h2 : j = c <;> split_ifs <;> simp_all

lemma addM_father (env : Env) (c p j : Nat) :
    ((appendChild (setFather env c p) p c) j).father
      = if j = c then some p else (env j).father := by
  unfold appendChild setFather
  by_cases h1 : j = p <;> by_cases h2 : j = c <;> split_ifs <;> simp_all

lemma addM_children (env : Env) (c p j : Nat) :
    ((appendChild (setFather env c p) p c) j).children
      = if j = p then (env j).children ++ [c] else (env j).children := by
  unfold appendChild setFather
  by_cases h1 : j = p <;> by_cases h2 : j = c <;> split_ifs <;> simp_all

lemma addF_mother (env : Env) (c p j : Nat) :
    ((appendChild (setMother env c p) p c) j).mother
      = if j = c then some p else (env j).mother := by
  unfold appendChild setMother
  by_cases h1 : j = p <;> by_cases h2 : j = c <;> split_ifs <;> simp_all

lemma addF_father (env : Env) (c p j : Nat) :
    ((appendChild (setMother env c p) p c) j).father = (env j).father := by
  unfold appendChild setMother
  by_cases h1 : j = p <;> by_cases h2 : j = c <;> split_ifs <;> simp_all

lemma addF_children (env : Env) (c p j : Nat) :
    ((appendChild (setMother env c p) p c) j).children
      = if j = p then (env j).children ++ [c] else (env j).children := by
  unfold appendChild setMother
  by_cases h1 : j = p <;> by_cases h2 : j = c <;> split_ifs <;> simp_all

lemma built_inv (env : Env) (hb : Built env) : ParentChildInv env := by
  induction hb with
  | base env h =>
    intro i q
    constructor
    · intro hmo
      rw [(h i).1] at hmo
      cases hmo
    · intro hfa
      rw [(h i).2] at hfa
      cases hfa
  | step env c p s hb ih =>
    intro i q
    unfold add_parent_child_relationship
    by_cases hM : s = "M"
    · rw [if_pos hM]
      constructor
      · intro hmo
        rw [addM_mother] at hmo
        rw [addM_children]
        have hmem := (ih i q).1 hmo
        by_cases hq : q = p
        · rw [if_pos hq]
          exact List.mem_append_left _ hmem
        · rw [if_neg hq]
          exact hmem
      · intro hfa
        rw [addM_father] at hfa
        rw [addM_children]
        by_cases hic : i = c
        · rw [if_pos hic] at hfa
          injection hfa with hpq
          rw [if_pos hpq.symm]
          rw [hic]
          exact List.mem_append_right _ (List.mem_singleton_self c)
        · rw [if_neg hic] at hfa
          have hmem := (ih i q).2 hfa
          by_cases hq : q = p
          · rw [if_pos hq]
            exact List.mem_append_left _ hmem
          · rw [if_neg hq]
            exact hmem
    · rw [if_neg hM]
      by_cases hF : s = "F"
      · rw [if_pos hF]
        constructor
        · intro hmo
          rw [addF_mother] at hmo
          rw [addF_children]
          by_cases hic : i = c
          · rw [if_pos hic] at hmo
            injection hmo with hpq
            rw [if_pos hpq.symm]
            rw [hic]
            exact List.mem_append_right _ (List.mem_singleton_self c)
          · rw [if_neg hic] at hmo
            have hmem := (ih i q).1 hmo
            by_cases hq : q = p
            · rw [if_pos hq]
              exact List.mem_append_left _ hmem
            · rw [if_neg hq]
              exact hmem
        · intro hfa
          rw [addF_father] at hfa
          rw [addF_children]
          have hmem := (ih i q).2 hfa
          by_cases hq : q = p
          · rw [if_pos hq]
            exact List.mem_append_left _ hmem
          · rw [if_neg hq]
            exact hmem
      · rw [if_neg hF]
        exact ih i q

lemma addM_count (env : Env) (c p : Nat) :
    ((add_parent_child_relationship env c p "M") p).children.count c
      = ((env p).children.count c) + 1 := by
  unfold add_parent_child_relationship
  rw [if_pos rfl, addM_children, if_pos rfl, List.count_append]
  simp

lemma addF_count (env : Env) (c p : Nat) :
    ((add_parent_child_relationship env c p "F") p).children.count c
      = ((env p).children.count c) + 1 := by
  unfold add_parent_child_relationship
  rw [if_neg (by decide), if_pos rfl, addF_children, if_pos rfl, List.count_append]
  simp

/-- C7: in any heap built by `add_parent_child_relationship` calls from
fresh individuals, every recorded mother (and father) lists the child in
its children sequence; moreover each relationship call appends exactly one
occurrence of the child to the parent's children sequence. -/
theorem C7_parent_child_symmetry (env : Env) (h : Built env) :
    ParentChildInv env ∧
      ∀ c p : Nat,
        ((add_parent_child_relationship env c p "M") p).children.count c
            = ((env p).children.count c) + 1 ∧
        ((add_parent_child_relationship env c p "F") p).children.count c
            = ((env p).children.count c) + 1 :=
  ⟨built_inv env h, fun c p => ⟨addM_count env c p, addF_count env c p⟩⟩

/-- Witness for C7 on a small built heap: after recording 2 as 1's mother,
1 is listed among 2's children, and a further call appends exactly one
occurrence. -/
theorem C7_witness :
    1 ∈ ((add_parent_child_relationship envW 1 2 "F") 2).children ∧
      ((add_parent_child_relationship (add_parent_child_relationship envW 1 2 "F") 3 4 "M")
          4).children.count 3
        = (((add_parent_child_relationship envW 1 2 "F") 4).children.count 3) + 1 := by
  have hb : Built (add_parent_child_relationship envW 1 2 "F") :=
    Built.step envW 1 2 "F" (Built.base envW fun i => ⟨rfl, rfl⟩)
  exact ⟨((C7_parent_child_symmetry _ hb).1 1 2).1 rfl,
    ((C7_parent_child_symmetry _ hb).2 3 4).1⟩

/-- C10: if no affected individual in the collection has both parents
recorded, `find_mode_of_inheritance` performs no eliminations and returns
the complete four-mode set. -/
theorem C10_no_discard_when_no_eligible_affected (env : Env) (inds : List Nat)
    (h : ∀ i ∈ inds, (env i).affected = true →
      (env i).mother = none ∨ (env i).father = none) :
    find_mode_of_inheritance env inds = .ok (.multiple initialModes) := by
  unfold find_mode_of_inheritance
  rw [eliminate_skip env inds h initialModes]
  rfl

/-- Witness for C10 on a concrete pedigree whose only affected individual is
a founder. -/
theorem C10_witness : find_mode_of_inheritance env8 [0, 1, 2] = .ok (.multiple initialModes) :=
  C10_no_discard_when_no_eligible_affected env8 [0, 1, 2] (by decide)

/-- C9: `add_parent_child_relationship` with a sex tag other than `"M"` or
`"F"` is a silent no-op: the heap is unchanged. -/
theorem C9_invalid_tag_noop (env : Env) (c p : Nat) (sex : String)
    (h1 : sex ≠ "M") (h2 : sex ≠ "F") :
    add_parent_child_relationship env c p sex = env := by
  unfold add_parent_child_relationship
  rw [if_neg h1, if_neg h2]

/-- Witness for C9 at the unrecognized tag `"X"`. -/
theorem C9_witness : add_parent_child_relationship envW 0 1 "X" = envW :=
  C9_invalid_tag_noop envW 0 1 "X" (by decide) (by decide)

/-- Counterexample to C2: on the Scenario A pedigree exactly as built by the
example code (Test Pedigree 9), `find_mode_of_inheritance` does not return
the single string `"Autosomal Recessive"`. -/
theorem C2_counterexample :
    find_mode_of_inheritance env9 inds9 ≠ .ok (.single "Autosomal Recessive") := by
  intro h
  have e : find_mode_of_inheritance env9 inds9
      = Except.ok (ModeResult.multiple ⟨false, true, false, true⟩) := rfl
  rw [e] at h
  injection h with h1
  cases h1

/-- C2 amended: on the Scenario A pedigree the algorithm returns the
two-element set {Autosomal Recessive, X-Linked Recessive}: the only affected
individual with both parents recorded (I5) is female, so nothing ever
discards X-Linked Recessive. -/
theorem C2_amended :
    find_mode_of_inheritance env9 inds9 = .ok (.multiple ⟨false, true, false, true⟩) := rfl

end PedigreeProfiler
